import Mathlib

/-!
Shallow embedding of the `op` package of utilitywarehouse/go-operational.

The repository snapshot contains two revisions of `health.go`:
* `src/unnamed/part_002` — the gauge-metering revision: `Status` carries
  a shared `checkResultGauge`, `Check` runs the probes concurrently with a
  wait group, `WithInstrumentedChecks` / `safeMetricName` /
  `updateCheckMetrics` implement gauge-per-outcome metering.  Embedded in
  namespace `Op` below.
* `src/unnamed/part_003` — the counter-metering revision:
  `AddCheckerWithMetrics` registers a dedicated `CounterVec` per checker
  (named by replacing spaces with underscores) and `Check` runs probes
  sequentially, bumping the counter after each probe.  Embedded in
  namespace `OpV1` below.

Both revisions share the outcome strings, `CheckResponse`, the result
types and the verdict-aggregation loop verbatim; those are embedded once,
at the top level.  Go strings become `String`, probe callbacks
(`func(cr *CheckResponse)`, which mutate their argument) become pure state
transformers `CheckResponse → CheckResponse` applied to the zero value,
nil-able prometheus handles become `Bool` / `Option String`, and the
prometheus gauge/counter stores become explicit finite maps
`String × String → Nat` threaded through the functions that write them.
-/

namespace GoOperational

/-- Outcome string constant, from the `const` block of health.go. -/
def healthy : String := "healthy"

/-- Outcome string constant, from the `const` block of health.go. -/
def degraded : String := "degraded"

/-- Outcome string constant, from the `const` block of health.go. -/
def unhealthy : String := "unhealthy"

/-- Label-name constant `healthcheck_name` (part_002). -/
def healthcheckName : String := "healthcheck_name"

/-- Label-name constant `healthcheck_result` (part_002). -/
def healthcheckResult : String := "healthcheck_result"

/-- Metric-name constant `healthcheck_status` (part_002). -/
def healthcheckStatus : String := "healthcheck_status"

/-- Go struct `CheckResponse`.  The Go zero value has every field `""`,
which is the default instance here. -/
structure CheckResponse where
  health : String := ""
  output : String := ""
  action : String := ""
  impact : String := ""
deriving Repr, DecidableEq

/-- Method `(*CheckResponse).Healthy`: sets health to healthy, records the
output and clears action and impact. -/
def CheckResponse.Healthy (_cr : CheckResponse) (output : String) : CheckResponse :=
  { health := healthy, output := output, action := "", impact := "" }

/-- Method `(*CheckResponse).Degraded`: sets health to degraded, records
output and action and clears impact. -/
def CheckResponse.Degraded (_cr : CheckResponse) (output action : String) : CheckResponse :=
  { health := degraded, output := output, action := action, impact := "" }

/-- Method `(*CheckResponse).Unhealthy`: sets health to unhealthy and
records output, action and impact. -/
def CheckResponse.Unhealthy (_cr : CheckResponse) (output action impact : String) :
    CheckResponse :=
  { health := unhealthy, output := output, action := action, impact := impact }

/-- Go struct `healthResultEntry` (one per checker in a health result). -/
structure healthResultEntry where
  Name : String
  Health : String
  Output : String
  Action : String
  Impact : String
deriving Repr, DecidableEq

/-- Go struct `HealthResult`. -/
structure HealthResult where
  Name : String
  Description : String
  Health : String
  CheckResults : List healthResultEntry
deriving Repr, DecidableEq

/-- The seen-flags loop of `Check` (identical in part_002 lines 147-157 and
part_003 lines 147-157): one pass over the collected results setting
`seenHealthy`, `seenDegraded`, `seenUnhealthy`.  The accumulator is the
triple `(seenHealthy, seenDegraded, seenUnhealthy)`. -/
def seenFlags (rs : List healthResultEntry) : Bool × Bool × Bool :=
  rs.foldl
    (fun acc hcr =>
      if hcr.Health = healthy then (true, acc.2.1, acc.2.2)
      else if hcr.Health = degraded then (acc.1, true, acc.2.2)
      else if hcr.Health = unhealthy then (acc.1, acc.2.1, true)
      else acc)
    (false, false, false)

/-- The verdict switch of `Check` (identical in both revisions, lines
159-169): unhealthy beats degraded beats healthy, and with no flags set
(in particular with no checkers) the verdict defaults to unhealthy. -/
def overallHealth (f : Bool × Bool × Bool) : String :=
  if f.2.2 then unhealthy
  else if f.2.1 then degraded
  else if f.1 then healthy
  else unhealthy

/-- Does some entry of `rs` carry health string `h`? -/
def anyHealth (rs : List healthResultEntry) (h : String) : Bool :=
  rs.any (fun r => r.Health == h)

theorem anyHealth_cons (r : healthResultEntry) (rs : List healthResultEntry) (h : String) :
    anyHealth (r :: rs) h = (r.Health == h || anyHealth rs h) := by
  simp [anyHealth]

theorem anyHealth_eq_true (rs : List healthResultEntry) (h : String) :
    anyHealth rs h = true ↔ ∃ r ∈ rs, r.Health = h := by
  simp [anyHealth]

/-- The seen-flags fold computes exactly the three membership tests. -/
theorem seenFlags_eq (rs : List healthResultEntry) :
    seenFlags rs = (anyHealth rs healthy, anyHealth rs degraded, anyHealth rs unhealthy) := by
  have key : ∀ (l : List healthResultEntry) (acc : Bool × Bool × Bool),
      l.foldl
        (fun acc hcr =>
          if hcr.Health = healthy then (true, acc.2.1, acc.2.2)
          else if hcr.Health = degraded then (acc.1, true, acc.2.2)
          else if hcr.Health = unhealthy then (acc.1, acc.2.1, true)
          else acc)
        acc
      = (acc.1 || anyHealth l healthy, acc.2.1 || anyHealth l degraded,
         acc.2.2 || anyHealth l unhealthy) := by
    intro l
    induction l with
    | nil => intro acc; simp [anyHealth]
    | cons r rs ih =>
      intro acc
      rw [List.foldl_cons, ih]
      by_cases h1 : r.Health = healthy
      · simp [anyHealth_cons, h1, healthy, degraded, unhealthy]
      · by_cases h2 : r.Health = degraded
        · simp [anyHealth_cons, h1, h2, healthy, degraded, unhealthy]
        · by_cases h3 : r.Health = unhealthy
          · simp [anyHealth_cons, h1, h2, h3, healthy, degraded, unhealthy]
          · have e1 : (r.Health == healthy) = false := beq_eq_false_iff_ne.mpr h1
            have e2 : (r.Health == degraded) = false := beq_eq_false_iff_ne.mpr h2
            have e3 : (r.Health == unhealthy) = false := beq_eq_false_iff_ne.mpr h3
            simp [anyHealth_cons, e1, e2, e3, h1, h2, h3]
  rw [seenFlags, key]
  simp

namespace Op

/-!
Embedding of the gauge-metering revision of health.go
(`src/unnamed/part_002`) together with the handlers
(`src/op/handlers.go` and `src/unnamed/part_005`).
-/

/-- Go struct `owner` (part_002 lines 240-243). -/
structure owner where
  name : String
  slack : String
deriving Repr, DecidableEq

/-- Go struct `link` (part_002 lines 245-248). -/
structure link where
  description : String
  url : String
deriving Repr, DecidableEq

/-- Go struct `checker` (part_002 lines 275-278).  The probe
`func(resp *CheckResponse)` mutates its argument, so it is embedded as a
state transformer on `CheckResponse`; `Check` applies it to the zero
value (`var cr CheckResponse`). -/
structure checker where
  name : String
  checkFunc : CheckResponse → CheckResponse

/-- The data fields of Go struct `Status` (part_002 lines 229-238) other
than the readiness closure.  `checkResultGauge *prometheus.GaugeVec` is a
nil-able handle whose only read in the source is the nil test in
`updateCheckMetrics`, so it is embedded as a `Bool` (registered or not);
the gauge values themselves live in the metrics store threaded
explicitly (`Gauge` below).  The `ready` field is split off into
`Status` because the closure installed by `ReadyUseHealthCheck` captures
the `*Status` pointer and reads the rest of the struct at call time. -/
structure StatusData where
  name : String
  description : String
  owners : List owner
  links : List link
  revision : String
  checkers : List checker
  checkResultGauge : Bool

/-- Go struct `Status`: the data fields plus the readiness closure
`ready func() bool`.  A readiness closure reads the current registry
through the captured pointer, so it is embedded as a function of the
`StatusData` current at query time (`none` is Go's nil). -/
structure Status extends StatusData where
  ready : Option (StatusData → Bool)

/-- `NewStatus` (part_002 lines 20-22): all other fields take their Go
zero values (nil slices, nil function pointers). -/
def NewStatus (name description : String) : Status :=
  { name := name, description := description, owners := [], links := [],
    revision := "", checkers := [], checkResultGauge := false, ready := none }

/-- `AddOwner` (part_002 lines 26-29). -/
def Status.AddOwner (s : Status) (name slack : String) : Status :=
  { s with owners := s.owners ++ [{ name := name, slack := slack }] }

/-- `AddLink` (part_002 lines 33-36). -/
def Status.AddLink (s : Status) (description url : String) : Status :=
  { s with links := s.links ++ [{ description := description, url := url }] }

/-- `SetRevision` (part_002 lines 39-42). -/
def Status.SetRevision (s : Status) (revision : String) : Status :=
  { s with revision := revision }

/-- `AddChecker` (part_002 lines 47-50): appends to the checker list. -/
def Status.AddChecker (s : Status) (name : String)
    (checkerFunc : CheckResponse → CheckResponse) : Status :=
  { s with checkers := s.checkers ++ [{ name := name, checkFunc := checkerFunc }] }

/-- `RemoveCheckers` (part_002 lines 54-63): keeps exactly the checkers
whose name differs from the argument. -/
def Status.RemoveCheckers (s : Status) (name : String) : Status :=
  { s with checkers := s.checkers.filter (fun ch => ch.name ≠ name) }

/-- `WithInstrumentedChecks` (part_002 lines 175-183): registers the
shared gauge and stores the handle. -/
def Status.WithInstrumentedChecks (s : Status) : Status :=
  { s with checkResultGauge := true }

/-- The body of one goroutine of `Check` (part_002 lines 132-140): run
the probe on a fresh zero `CheckResponse` and build the result entry for
its slot. -/
def runCheck (ch : checker) : healthResultEntry :=
  let cr := ch.checkFunc {}
  { Name := ch.name, Health := cr.health, Output := cr.output,
    Action := cr.action, Impact := cr.impact }

/-- `Check` (part_002 lines 118-172), result part.  The goroutines write
`runCheck` of the i-th checker into the pre-allocated i-th slot of
`CheckResults` and the wait group joins them before aggregation, so the
collected list is the position-indexed map of `runCheck` over the
checkers; `runSchedule` below models the slot-writing at an arbitrary
completion order and is proved to agree for every schedule. -/
def StatusData.Check (s : StatusData) : HealthResult :=
  let results := s.checkers.map runCheck
  { Name := s.name, Description := s.description,
    Health := overallHealth (seenFlags results), CheckResults := results }

/-- One goroutine completion in the slot model: goroutine `i` writes the
entry of checker `i` into slot `i` (out-of-range indices never occur in a
schedule drawn from `range`). -/
def scheduleStep (chs : List checker) (slots : List (Option healthResultEntry))
    (i : Nat) : List (Option healthResultEntry) :=
  match chs.get? i with
  | some ch => slots.set i (some (runCheck ch))
  | none => slots

/-- The concurrent slot-filling of `Check` (part_002 lines 122-145),
made explicit: slots start as `make([]healthResultEntry, len(checkers))`
(here `none` marks a not-yet-written slot) and the goroutines complete in
an arbitrary order `order`, each writing `runCheck` of checker `i` into
slot `i`. -/
def runSchedule (chs : List checker) (order : List Nat) :
    List (Option healthResultEntry) :=
  order.foldl (scheduleStep chs) (List.replicate chs.length none)

/-- `safeMetricName`'s loop (part_002 lines 185-195), one rune at a time;
`i` is the running index.  Go's `range` index is the byte offset of the
rune, but the index is only ever compared with `0`, and a rune is at
byte offset `0` exactly when it is at character position `0`, so the
character position is used here. -/
def safeMetricNameAux (i : Nat) : List Char → List Char
  | [] => []
  | b :: rest =>
      (if ¬(('a' ≤ b ∧ b ≤ 'z') ∨ ('A' ≤ b ∧ b ≤ 'Z') ∨ b = '_' ∨ b = ':'
            ∨ ('0' ≤ b ∧ b ≤ '9' ∧ 0 < i))
        then '_' else b) :: safeMetricNameAux (i + 1) rest

/-- `safeMetricName` (part_002 lines 185-195). -/
def safeMetricName (checkName : String) : String :=
  String.mk (safeMetricNameAux 0 checkName.toList)

/-- The prometheus gauge store for the shared
`healthcheck_status` GaugeVec: a map from the pair of label values
(`healthcheck_name`, `healthcheck_result`) to the gauge value.  Only the
values 0 and 1 are ever written by the source. -/
def Gauge : Type := String × String → Nat

/-- `Set` on one labelled child of the GaugeVec. -/
def Gauge.set (g : Gauge) (k : String × String) (v : Nat) : Gauge :=
  fun q => if q = k then v else g q

/-- The `possibleStatuses` slice of `updateCheckMetrics` (part_002 line
199), in source order. -/
def possibleStatuses : List String := [healthy, unhealthy, degraded]

/-- `updateCheckMetrics` (part_002 lines 197-208): when the gauge handle
is set, walk `possibleStatuses` and set the child keyed by the sanitized
checker name and the status to 1 when the status matches the produced
health and to 0 otherwise. -/
def StatusData.updateCheckMetrics (s : StatusData) (g : Gauge) (ch : checker)
    (cr : CheckResponse) : Gauge :=
  if s.checkResultGauge then
    possibleStatuses.foldl
      (fun g status =>
        if cr.health = status then
          g.set (safeMetricName ch.name, status) 1
        else
          g.set (safeMetricName ch.name, status) 0)
      g
  else g

/-- The metering effect of one `Check` call (part_002 line 141): every
goroutine calls `s.updateCheckMetrics(ch, cr)` with the response its
probe produced.  Distinct checkers write disjoint gauge children (when
their sanitized names differ), so the concurrent writes are modelled as
a fold in registration order. -/
def StatusData.runMetrics (s : StatusData) (g : Gauge) : Gauge :=
  s.checkers.foldl (fun g ch => s.updateCheckMetrics g ch (ch.checkFunc {})) g

/-- `Check` (part_002 lines 118-172) with every effect explicit: it
returns the fresh `HealthResult`, the registry as left behind, and the
gauge store as left behind.  Each loop iteration runs one probe, appends
its entry and applies its metric update; no statement of the source
assigns to `s` or any of its fields, which the threaded `Status`
component records.  The probes are pure state transformers on
`CheckResponse` here, which is the claim's proviso that probes do not
themselves mutate the `Status`. -/
def Status.CheckFull (s : Status) (g : Gauge) : HealthResult × Status × Gauge :=
  let r := s.checkers.foldl
    (fun (acc : List healthResultEntry × Status × Gauge) ch =>
      let cr := ch.checkFunc {}
      (acc.1 ++ [{ Name := ch.name, Health := cr.health, Output := cr.output,
                   Action := cr.action, Impact := cr.impact }],
       acc.2.1,
       acc.2.1.toStatusData.updateCheckMetrics acc.2.2 ch cr))
    ([], s, g)
  ({ Name := s.name, Description := s.description,
     Health := overallHealth (seenFlags r.1), CheckResults := r.1 }, r.2.1, r.2.2)

/-- The body of the closure installed by `ReadyUseHealthCheck` (part_002
lines 97-106): switch on `s.Check().Health`, ready exactly for healthy
and degraded.  The closure dereferences the captured `*Status` at call
time, so the body takes the registry data current at the query. -/
def readyUseHealthCheckBody (core : StatusData) : Bool :=
  if core.Check.Health = healthy then true
  else if core.Check.Health = degraded then true
  else false

/-- `ReadyUseHealthCheck` (part_002 lines 96-108): installs the closure
above as the readiness predicate. -/
def Status.ReadyUseHealthCheck (s : Status) : Status :=
  { s with ready := some readyUseHealthCheckBody }

/-- `ReadyAlways` (part_002 lines 81-84). -/
def Status.ReadyAlways (s : Status) : Status :=
  { s with ready := some (fun _ => true) }

/-- `ReadyNever` (part_002 lines 88-91). -/
def Status.ReadyNever (s : Status) : Status :=
  { s with ready := some (fun _ => false) }

/-- `ReadyNone` (part_002 lines 74-77). -/
def Status.ReadyNone (s : Status) : Status :=
  { s with ready := none }

/-- One readiness query: evaluate the stored predicate, if any, against
the registry data current at the query (`hc.ready()` through the
captured pointer). -/
def queryReady (s : Status) : Option Bool :=
  s.ready.map (fun f => f s.toStatusData)

/-- HTTP responses a handler of this package can produce on the paths the
claims are about.  JSON encoding of a `HealthResult` into the response
body cannot fail, so the 500 branch of `newHealthCheckHandler` is
unreachable and has no constructor here. -/
inductive Response where
  | notFound : Response
  | okJson : HealthResult → Response
deriving Repr, DecidableEq

namespace HandlersA

/-- `newHealthCheckHandler` from `src/op/handlers.go` lines 13-24.  The
zero-checkers test runs once, at handler construction, on the `Status`
passed in; when it fails, the returned handler is the constant
not-found handler.  Otherwise the returned closure calls `hc.Check()`
through the captured pointer, i.e. on the registry state current at the
request, which the extra `Status` argument stands for. -/
def newHealthCheckHandler (hc : Status) : Status → Response :=
  if hc.checkers.length = 0 then fun _ => Response.notFound
  else fun cur => Response.okJson cur.toStatusData.Check

end HandlersA

namespace HandlersB

/-- `newHealthCheckHandler` from `src/unnamed/part_005` lines 13-24: the
zero-checkers test sits inside the per-request closure, so it reads the
registry state current at the request. -/
def newHealthCheckHandler (_hc : Status) : Status → Response :=
  fun cur =>
    if cur.checkers.length = 0 then Response.notFound
    else Response.okJson cur.toStatusData.Check

end HandlersB

end Op

namespace OpV1

/-!
Embedding of the counter-metering revision of health.go
(`src/unnamed/part_003`).
-/

/-- Go struct `checker` (part_003 lines 244-248).  The
`checkCounter *prometheus.CounterVec` handle is nil or identifies the
counter family registered for this checker; it is embedded as the
optional metric-family name the CounterVec was created with. -/
structure checker where
  name : String
  checkFunc : CheckResponse → CheckResponse
  checkCounter : Option String

/-- The data fields of Go struct `Status` (part_003 lines 199-207) other
than the readiness closure (split off as in the `Op` namespace). -/
structure StatusData where
  name : String
  description : String
  owners : List Op.owner
  links : List Op.link
  revision : String
  checkers : List checker

/-- Go struct `Status` of part_003: data fields plus the readiness
closure. -/
structure Status extends StatusData where
  ready : Option (StatusData → Bool)

/-- `NewStatus` (part_003 lines 16-18): all other fields take their Go
zero values. -/
def NewStatus (name description : String) : Status :=
  { name := name, description := description, owners := [], links := [],
    revision := "", checkers := [], ready := none }

/-- The prometheus counter store: a map from (metric-family name,
`healthcheck_result` label value) to the accumulated count. -/
def CounterState : Type := String × String → Nat

/-- The local `checkCounterName` of `AddCheckerWithMetrics` (part_003
line 44): `strings.Replace(name, " ", "_", -1)`, i.e. every space of the
name becomes an underscore. -/
def counterMetricName (name : String) : String :=
  String.mk (name.toList.map (fun c => if c = ' ' then '_' else c))

/-- `AddCheckerWithMetrics` (part_003 lines 43-65): creates a CounterVec
whose metric name is the checker name with spaces replaced by
underscores, registers it (`MustRegister` aborts on a duplicate name —
registration bookkeeping is outside this model) and appends a checker
holding the handle. -/
def Status.AddCheckerWithMetrics (s : Status) (name : String)
    (checkerFunc : CheckResponse → CheckResponse) : Status :=
  { s with checkers := s.checkers ++
      [{ name := name, checkFunc := checkerFunc,
         checkCounter := some (counterMetricName name) }] }

/-- `AddChecker` (part_003 lines 70-73): no counter handle. -/
def Status.AddChecker (s : Status) (name : String)
    (checkerFunc : CheckResponse → CheckResponse) : Status :=
  { s with checkers := s.checkers ++
      [{ name := name, checkFunc := checkerFunc, checkCounter := none }] }

/-- `updateCheckMetrics` (part_003 lines 174-178): when the checker has a
counter handle, `Inc` the child labelled with the produced health
string. -/
def updateCheckMetrics (ch : checker) (cr : CheckResponse) (m : CounterState) :
    CounterState :=
  match ch.checkCounter with
  | some fam => fun k => if k = (fam, cr.health) then m k + 1 else m k
  | none => m

/-- `Check` (part_003 lines 127-172): run every probe in registration
order on a fresh zero `CheckResponse`, record its entry, bump its
counter, then derive the verdict with the shared precedence loop. -/
def StatusData.Check (s : StatusData) (m : CounterState) :
    HealthResult × CounterState :=
  let r := s.checkers.foldl
    (fun (acc : List healthResultEntry × CounterState) ch =>
      let cr := ch.checkFunc {}
      (acc.1 ++ [{ Name := ch.name, Health := cr.health, Output := cr.output,
                   Action := cr.action, Impact := cr.impact }],
       updateCheckMetrics ch cr acc.2))
    ([], m)
  ({ Name := s.name, Description := s.description,
     Health := overallHealth (seenFlags r.1), CheckResults := r.1 }, r.2)

/-- The counter store after `n` consecutive `Check` calls starting from
`m`. -/
def iterCheck (s : StatusData) : Nat → CounterState → CounterState
  | 0, m => m
  | n + 1, m => (s.Check (iterCheck s n m)).2

end OpV1

/-! ### Helper lemmas shared by the claim theorems -/

theorem overallHealth_seenFlags (rs : List healthResultEntry) :
    overallHealth (seenFlags rs) =
      if anyHealth rs unhealthy then unhealthy
      else if anyHealth rs degraded then degraded
      else if anyHealth rs healthy then healthy
      else unhealthy := by
  rw [seenFlags_eq]; rfl

theorem anyHealth_perm {l1 l2 : List healthResultEntry} (hp : l1.Perm l2)
    (h : String) : anyHealth l1 h = anyHealth l2 h := by
  rw [Bool.eq_iff_iff, anyHealth_eq_true, anyHealth_eq_true]
  constructor
  · rintro ⟨r, hr, he⟩; exact ⟨r, hp.mem_iff.mp hr, he⟩
  · rintro ⟨r, hr, he⟩; exact ⟨r, hp.mem_iff.mpr hr, he⟩

/-- A concrete registry used by several witnesses below: one healthy and
one unhealthy checker. -/
def sampleStatusData : Op.StatusData :=
  { name := "name", description := "desc", owners := [], links := [],
    revision := "", checkers :=
      [{ name := "check mongo", checkFunc := fun cr => cr.Healthy "ok" },
       { name := "check kafka",
         checkFunc := fun cr => cr.Unhealthy "thing failed" "fix the thing" "very bad" }],
    checkResultGauge := true }

theorem scheduleStep_length (chs : List Op.checker)
    (slots : List (Option healthResultEntry)) (i : Nat) :
    (Op.scheduleStep chs slots i).length = slots.length := by
  simp only [Op.scheduleStep]
  split <;> simp

theorem scheduleStep_get_ne (chs : List Op.checker)
    (slots : List (Option healthResultEntry)) {i j : Nat} (hij : i ≠ j) :
    (Op.scheduleStep chs slots i).get? j = slots.get? j := by
  simp only [Op.scheduleStep]
  split
  · simp [List.get?_eq_getElem?, List.getElem?_set_ne hij]
  · rfl

theorem schedule_foldl_length (chs : List Op.checker) (order : List Nat) :
    ∀ slots : List (Option healthResultEntry),
      (order.foldl (Op.scheduleStep chs) slots).length = slots.length := by
  induction order with
  | nil => intro slots; rfl
  | cons i rest ih =>
    intro slots
    rw [List.foldl_cons, ih, scheduleStep_length]

theorem schedule_foldl_get_not_mem (chs : List Op.checker) (order : List Nat) :
    ∀ (slots : List (Option healthResultEntry)) (j : Nat), j ∉ order →
      (order.foldl (Op.scheduleStep chs) slots).get? j = slots.get? j := by
  induction order with
  | nil => intro slots j _; rfl
  | cons i rest ih =>
    intro slots j hj
    have hij : i ≠ j := by
      rintro rfl
      exact hj (List.mem_cons_self i rest)
    rw [List.foldl_cons, ih _ j (fun h => hj (List.mem_cons_of_mem i h)),
      scheduleStep_get_ne chs slots hij]

theorem schedule_foldl_get_mem (chs : List Op.checker) (ch : Op.checker)
    (order : List Nat) :
    ∀ (slots : List (Option healthResultEntry)) (j : Nat),
      chs.get? j = some ch → slots.length = chs.length → j ∈ order →
      (order.foldl (Op.scheduleStep chs) slots).get? j
        = some (some (Op.runCheck ch)) := by
  induction order with
  | nil => intro slots j _ _ hmem; exact absurd hmem (List.not_mem_nil j)
  | cons i rest ih =>
    intro slots j hget hlen hmem
    rw [List.foldl_cons]
    by_cases hjr : j ∈ rest
    · exact ih _ j hget (by rw [scheduleStep_length, hlen]) hjr
    · have hij : i = j := by
        rcases List.mem_cons.mp hmem with h | h
        · exact h.symm
        · exact absurd h hjr
      subst hij
      have hlt : i < chs.length := by
        by_contra hge
        push_neg at hge
        rw [List.get?_len_le hge] at hget
        exact Option.noConfusion hget
      rw [schedule_foldl_get_not_mem chs rest _ i hjr]
      unfold Op.scheduleStep
      rw [hget]
      exact List.get?_set_eq_of_lt _ (hlen ▸ hlt)

/-! ### Claim theorems -/

/-- Claim C2: `Check()` returns exactly one entry per registered checker,
the i-th entry carries the name and the outcome the i-th registered
checker produced, and the slot-writing model of the concurrent probes
yields this same list under every completion order: `runSchedule` agrees
with the `CheckResults` of `Check` for every permutation of the
goroutine indices. -/
theorem check_results_positional (s : Op.StatusData) :
    (s.Check.CheckResults.length = s.checkers.length) ∧
    (∀ (i : Nat) (ch : Op.checker), s.checkers.get? i = some ch →
      s.Check.CheckResults.get? i =
        some { Name := ch.name, Health := (ch.checkFunc {}).health,
               Output := (ch.checkFunc {}).output,
               Action := (ch.checkFunc {}).action,
               Impact := (ch.checkFunc {}).impact }) ∧
    (∀ order : List Nat, order.Perm (List.range s.checkers.length) →
      Op.runSchedule s.checkers order = s.Check.CheckResults.map some) := by
  have hres : s.Check.CheckResults = s.checkers.map Op.runCheck := rfl
  refine ⟨by rw [hres]; exact s.checkers.length_map Op.runCheck, ?_, ?_⟩
  · intro i ch hget
    rw [hres, List.get?_map, hget]
    rfl
  · intro order hperm
    have hmem : ∀ j : Nat, j ∈ order ↔ j < s.checkers.length := by
      intro j
      rw [hperm.mem_iff, List.mem_range]
    apply List.ext_get?_iff.mpr
    intro j
    by_cases hj : j < s.checkers.length
    · obtain ⟨ch, hch⟩ : ∃ ch, s.checkers.get? j = some ch := by
        cases hcase : s.checkers.get? j with
        | none =>
          rw [List.get?_eq_none] at hcase
          omega
        | some ch => exact ⟨ch, rfl⟩
      rw [Op.runSchedule,
        schedule_foldl_get_mem s.checkers ch order _ j hch
          (List.length_replicate _ _) ((hmem j).mpr hj),
        hres, List.get?_map, List.get?_map, hch]
      rfl
    · push_neg at hj
      rw [Op.runSchedule,
        schedule_foldl_get_not_mem s.checkers order _ j
          (fun hin => absurd ((hmem j).mp hin) (by omega)),
        List.get?_len_le (by simpa using hj),
        List.get?_len_le (by simpa [hres] using hj)]

/-- Witness for C2 at the concrete two-checker registry: the completion
order that finishes the second probe first still yields the results in
registration order, and slot 0 carries the first checker's outcome. -/
theorem check_results_positional_witness :
    Op.runSchedule sampleStatusData.checkers [1, 0]
        = sampleStatusData.Check.CheckResults.map some ∧
    sampleStatusData.Check.CheckResults.get? 0 =
      some { Name := "check mongo", Health := healthy, Output := "ok",
             Action := "", Impact := "" } :=
  ⟨(check_results_positional sampleStatusData).2.2 [1, 0] (by decide),
   (check_results_positional sampleStatusData).2.1 0
     { name := "check mongo", checkFunc := fun cr => cr.Healthy "ok" } rfl⟩

theorem safeMetricNameAux_get (cs : List Char) : ∀ i j : Nat,
    (Op.safeMetricNameAux i cs).get? j = (cs.get? j).map (fun b =>
      if ('a' ≤ b ∧ b ≤ 'z') ∨ ('A' ≤ b ∧ b ≤ 'Z') ∨ b = '_' ∨ b = ':'
          ∨ ('0' ≤ b ∧ b ≤ '9' ∧ 0 < i + j) then b else '_') := by
  induction cs with
  | nil => intro i j; simp [Op.safeMetricNameAux]
  | cons b rest ih =>
    intro i j
    cases j with
    | zero =>
      simp only [Op.safeMetricNameAux, List.get?, Option.map_some', Nat.add_zero]
      by_cases hP : ('a' ≤ b ∧ b ≤ 'z') ∨ ('A' ≤ b ∧ b ≤ 'Z') ∨ b = '_' ∨ b = ':'
          ∨ ('0' ≤ b ∧ b ≤ '9' ∧ 0 < i)
      · rw [if_neg (not_not_intro hP), if_pos hP]
      · rw [if_pos hP, if_neg hP]
    | succ j =>
      simp only [Op.safeMetricNameAux, List.get?]
      rw [ih (i + 1) j]
      have harith : i + 1 + j = i + (j + 1) := by omega
      rw [harith]

theorem safeMetricNameAux_length (cs : List Char) : ∀ i : Nat,
    (Op.safeMetricNameAux i cs).length = cs.length := by
  induction cs with
  | nil => intro i; rfl
  | cons b rest ih =>
    intro i
    simp only [Op.safeMetricNameAux, List.length_cons, ih]

/-- Claim C4: `safeMetricName` keeps a character exactly when it is an
ASCII letter, an underscore, a colon, or at a position after the first an
ASCII digit, and replaces every other character — a digit in first
position included — by a single underscore; in particular it preserves
the name's length, maps "check the foo bar" to "check_the_foo_bar" and
maps "1check" to "_check". -/
theorem safeMetricName_sanitization :
    (∀ (name : String) (j : Nat) (c : Char), name.toList.get? j = some c →
      (Op.safeMetricName name).toList.get? j =
        some (if (('A' ≤ c ∧ c ≤ 'Z') ∨ ('a' ≤ c ∧ c ≤ 'z')) ∨ c = '_' ∨ c = ':'
               ∨ (0 < j ∧ '0' ≤ c ∧ c ≤ '9') then c else '_')) ∧
    (∀ name : String, (Op.safeMetricName name).toList.length = name.toList.length) ∧
    Op.safeMetricName "check the foo bar" = "check_the_foo_bar" ∧
    Op.safeMetricName "1check" = "_check" := by
  refine ⟨?_, ?_, by decide, by decide⟩
  · intro name j c hget
    show (Op.safeMetricNameAux 0 name.toList).get? j = _
    rw [safeMetricNameAux_get, hget, Option.map_some']
    have hiff : ('a' ≤ c ∧ c ≤ 'z') ∨ ('A' ≤ c ∧ c ≤ 'Z') ∨ c = '_' ∨ c = ':'
          ∨ ('0' ≤ c ∧ c ≤ '9' ∧ 0 < 0 + j)
        ↔ (('A' ≤ c ∧ c ≤ 'Z') ∨ ('a' ≤ c ∧ c ≤ 'z')) ∨ c = '_' ∨ c = ':'
          ∨ (0 < j ∧ '0' ≤ c ∧ c ≤ '9') := by
      rw [Nat.zero_add]
      tauto
    simp only [hiff]
  · intro name
    show (Op.safeMetricNameAux 0 name.toList).length = _
    exact safeMetricNameAux_length name.toList 0

/-- Witness for C4: the digit in first position of "1check" comes out as
an underscore, by the characterization applied at position 0. -/
theorem safeMetricName_sanitization_witness :
    (Op.safeMetricName "1check").toList.get? 0 = some '_' := by
  have h := safeMetricName_sanitization.1 "1check" 0 '1' rfl
  simpa using h

theorem gaugeSet_same (g : Op.Gauge) (k : String × String) (v : Nat) :
    (g.set k v) k = v := by
  simp [Op.Gauge.set]

theorem gaugeSet_other (g : Op.Gauge) (k q : String × String) (v : Nat)
    (h : q ≠ k) : (g.set k v) q = g q := by
  simp [Op.Gauge.set, h]

theorem gaugeStep_eq (g : Op.Gauge) (n st : String) (cr : CheckResponse) :
    (if cr.health = st then g.set (n, st) 1 else g.set (n, st) 0)
      = g.set (n, st) (if cr.health = st then 1 else 0) := by
  by_cases h : cr.health = st <;> simp [h]

theorem updateCheckMetrics_unfold (s : Op.StatusData) (hg : s.checkResultGauge = true)
    (g : Op.Gauge) (ch : Op.checker) (cr : CheckResponse) :
    s.updateCheckMetrics g ch cr =
      ((g.set (Op.safeMetricName ch.name, healthy) (if cr.health = healthy then 1 else 0)).set
          (Op.safeMetricName ch.name, unhealthy) (if cr.health = unhealthy then 1 else 0)).set
        (Op.safeMetricName ch.name, degraded) (if cr.health = degraded then 1 else 0) := by
  rw [Op.StatusData.updateCheckMetrics, hg]
  simp only [if_true, Op.possibleStatuses, List.foldl_cons, List.foldl_nil, gaugeStep_eq]

theorem updateCheckMetrics_at (s : Op.StatusData) (hg : s.checkResultGauge = true)
    (g : Op.Gauge) (ch : Op.checker) (cr : CheckResponse) (st : String)
    (hst : st ∈ Op.possibleStatuses) :
    s.updateCheckMetrics g ch cr (Op.safeMetricName ch.name, st)
      = if cr.health = st then 1 else 0 := by
  rw [updateCheckMetrics_unfold s hg]
  fin_cases hst
  · rw [gaugeSet_other _ _ _ _ (by simp [healthy, degraded]),
      gaugeSet_other _ _ _ _ (by simp [healthy, unhealthy]), gaugeSet_same]
  · rw [gaugeSet_other _ _ _ _ (by simp [unhealthy, degraded]), gaugeSet_same]
  · rw [gaugeSet_same]

theorem updateCheckMetrics_other (s : Op.StatusData) (g : Op.Gauge)
    (ch : Op.checker) (cr : CheckResponse) (k : String × String)
    (hk : k.1 ≠ Op.safeMetricName ch.name) :
    s.updateCheckMetrics g ch cr k = g k := by
  rw [Op.StatusData.updateCheckMetrics]
  by_cases hg : s.checkResultGauge
  · have hne : ∀ st : String, k ≠ (Op.safeMetricName ch.name, st) := by
      intro st he
      exact hk (by rw [he])
    rw [if_pos hg]
    simp only [Op.possibleStatuses, List.foldl_cons, List.foldl_nil, gaugeStep_eq]
    rw [gaugeSet_other _ _ _ _ (hne degraded), gaugeSet_other _ _ _ _ (hne unhealthy),
      gaugeSet_other _ _ _ _ (hne healthy)]
  · rw [if_neg hg]

theorem foldlMetrics_preserve (s : Op.StatusData) (chs : List Op.checker) :
    ∀ (g : Op.Gauge) (k : String × String),
      (∀ c ∈ chs, Op.safeMetricName c.name ≠ k.1) →
      chs.foldl (fun g c => s.updateCheckMetrics g c (c.checkFunc {})) g k = g k := by
  induction chs with
  | nil => intro g k _; rfl
  | cons c rest ih =>
    intro g k hk
    rw [List.foldl_cons, ih _ k (fun d hd => hk d (List.mem_cons_of_mem c hd)),
      updateCheckMetrics_other s g c _ k (fun h => hk c (List.mem_cons_self c rest) h.symm)]

theorem foldlMetrics_lookup (s : Op.StatusData) (hg : s.checkResultGauge = true)
    (chs : List Op.checker) :
    ∀ (g : Op.Gauge) (ch : Op.checker), ch ∈ chs →
      (chs.map (fun c => Op.safeMetricName c.name)).Nodup →
      ∀ st ∈ Op.possibleStatuses,
        chs.foldl (fun g c => s.updateCheckMetrics g c (c.checkFunc {})) g
            (Op.safeMetricName ch.name, st)
          = if (ch.checkFunc {}).health = st then 1 else 0 := by
  induction chs with
  | nil => intro g ch hmem; exact absurd hmem (List.not_mem_nil ch)
  | cons c rest ih =>
    intro g ch hmem hnodup st hst
    rw [List.map_cons, List.nodup_cons] at hnodup
    rw [List.foldl_cons]
    rcases List.mem_cons.mp hmem with hc | hc
    · subst hc
      rw [foldlMetrics_preserve s rest _ _ ?_, updateCheckMetrics_at s hg _ _ _ st hst]
      intro d hd he
      have he2 : Op.safeMetricName d.name = Op.safeMetricName ch.name := he
      exact hnodup.1 (he2 ▸ List.mem_map_of_mem (fun c => Op.safeMetricName c.name) hd)
    · exact ih _ ch hc hnodup.2 st hst

/-- The all-zero gauge store, used as the starting state in witnesses. -/
def zeroGauge : Op.Gauge := fun _ => 0

/-- The kafka checker of `sampleStatusData`. -/
def kafkaChecker : Op.checker :=
  { name := "check kafka",
    checkFunc := fun cr => cr.Unhealthy "thing failed" "fix the thing" "very bad" }

/-- Claim C5: with gauge metering enabled, the metering pass of a
`Check()` call leaves, for a checker whose sanitized name is unique in
the registry, the gauge child of the outcome that checker produced at 1
and the children of the other two outcomes at 0 — for every prior gauge
state, i.e. recomputed on every call, not only on change.  The children
are keyed by the sanitized checker name and the outcome label. -/
theorem gauge_one_hot_per_check (s : Op.StatusData) (g : Op.Gauge)
    (ch : Op.checker) (hmem : ch ∈ s.checkers)
    (hg : s.checkResultGauge = true)
    (hout : (ch.checkFunc {}).health = healthy ∨ (ch.checkFunc {}).health = degraded
      ∨ (ch.checkFunc {}).health = unhealthy)
    (hnodup : (s.checkers.map (fun c => Op.safeMetricName c.name)).Nodup) :
    s.runMetrics g (Op.safeMetricName ch.name, (ch.checkFunc {}).health) = 1 ∧
    (∀ st ∈ Op.possibleStatuses, st ≠ (ch.checkFunc {}).health →
      s.runMetrics g (Op.safeMetricName ch.name, st) = 0) := by
  have hmemst : (ch.checkFunc {}).health ∈ Op.possibleStatuses := by
    rcases hout with h | h | h <;> rw [h] <;> simp [Op.possibleStatuses]
  constructor
  · rw [Op.StatusData.runMetrics,
      foldlMetrics_lookup s hg s.checkers g ch hmem hnodup _ hmemst, if_pos rfl]
  · intro st hst hne
    rw [Op.StatusData.runMetrics,
      foldlMetrics_lookup s hg s.checkers g ch hmem hnodup st hst,
      if_neg (fun h => hne h.symm)]

/-- Witness for C5 at the concrete registry: after the metering pass the
kafka checker's unhealthy child reads 1 and its healthy child reads 0. -/
theorem gauge_one_hot_per_check_witness :
    sampleStatusData.runMetrics zeroGauge ("check_kafka", unhealthy) = 1 ∧
    sampleStatusData.runMetrics zeroGauge ("check_kafka", healthy) = 0 := by
  have hname : Op.safeMetricName kafkaChecker.name = "check_kafka" := by decide
  have h := gauge_one_hot_per_check sampleStatusData zeroGauge kafkaChecker
    (List.mem_cons_of_mem _ (List.mem_cons_self _ _)) rfl
    (Or.inr (Or.inr rfl)) (by decide)
  constructor
  · have h1 := h.1
    rw [hname] at h1
    exact h1
  · have h2 := h.2 healthy (by decide) (by decide)
    rw [hname] at h2
    exact h2

/-- Counterexample to C3: the shared-gauge path does not use the raw
checker name as the `healthcheck_name` label value — for the checker
named "check mongo" the raw-keyed child stays 0 while the sanitized-keyed
child "check_mongo" is set to 1 — and the per-checker-counter path does
not apply the C4 sanitization: `AddCheckerWithMetrics` names the counter
for "1check" as "1check", not "_check". -/
theorem sanitization_path_counterexample :
    sampleStatusData.updateCheckMetrics zeroGauge
        { name := "check mongo", checkFunc := fun cr => cr.Healthy "ok" }
        { health := healthy, output := "ok", action := "", impact := "" }
        ("check mongo", healthy) = 0 ∧
    sampleStatusData.updateCheckMetrics zeroGauge
        { name := "check mongo", checkFunc := fun cr => cr.Healthy "ok" }
        { health := healthy, output := "ok", action := "", impact := "" }
        ("check_mongo", healthy) = 1 ∧
    OpV1.counterMetricName "1check" = "1check" ∧
    Op.safeMetricName "1check" = "_check" := by
  refine ⟨by decide, by decide, by decide, by decide⟩

/-- C3 as amended: metric-identifier sanitization (`safeMetricName`) is
applied on the shared-gauge path — every gauge child the metering writes
for a checker is keyed by the sanitized checker name as the
`healthcheck_name` label value, and children under any other label value
are untouched — and it is not applied on the per-checker-counter naming
path: `AddCheckerWithMetrics` registers the counter under the checker
name with spaces replaced by underscores, a different function. -/
theorem sanitization_paths_amended (s : Op.StatusData) (g : Op.Gauge)
    (ch : Op.checker) (cr : CheckResponse) (t : OpV1.Status) (name : String)
    (f : CheckResponse → CheckResponse) :
    (∀ k : String × String, k.1 ≠ Op.safeMetricName ch.name →
        s.updateCheckMetrics g ch cr k = g k) ∧
    (s.checkResultGauge = true → ∀ st ∈ Op.possibleStatuses,
        s.updateCheckMetrics g ch cr (Op.safeMetricName ch.name, st)
          = if cr.health = st then 1 else 0) ∧
    ((t.AddCheckerWithMetrics name f).checkers.getLast? =
        some { name := name, checkFunc := f,
               checkCounter := some (OpV1.counterMetricName name) }) ∧
    OpV1.counterMetricName "1check" ≠ Op.safeMetricName "1check" := by
  refine ⟨?_, ?_, ?_, by decide⟩
  · intro k hk
    exact updateCheckMetrics_other s g ch cr k hk
  · intro hg st hst
    exact updateCheckMetrics_at s hg g ch cr st hst
  · simp [OpV1.Status.AddCheckerWithMetrics]

/-- Witness for the amended C3: a gauge child under a label value other
than the sanitized name is untouched, the sanitized healthy child of the
mongo checker is written to 1, and the counter registered for a checker
named "a b" is "a_b". -/
theorem sanitization_paths_amended_witness :
    sampleStatusData.updateCheckMetrics zeroGauge
        { name := "check mongo", checkFunc := fun cr => cr.Healthy "ok" }
        { health := healthy, output := "ok", action := "", impact := "" }
        ("something else", healthy) = 0 ∧
    sampleStatusData.updateCheckMetrics zeroGauge
        { name := "check mongo", checkFunc := fun cr => cr.Healthy "ok" }
        { health := healthy, output := "ok", action := "", impact := "" }
        ("check_mongo", healthy) = 1 ∧
    (((⟨⟨"n", "d", [], [], "", []⟩, none⟩ : OpV1.Status).AddCheckerWithMetrics
        "a b" (fun cr => cr.Healthy "ok")).checkers.getLast? =
      some { name := "a b", checkFunc := fun cr => cr.Healthy "ok",
             checkCounter := some "a_b" }) := by
  have h := sanitization_paths_amended sampleStatusData zeroGauge
    { name := "check mongo", checkFunc := fun cr => cr.Healthy "ok" }
    { health := healthy, output := "ok", action := "", impact := "" }
    (⟨⟨"n", "d", [], [], "", []⟩, none⟩ : OpV1.Status) "a b"
    (fun cr => cr.Healthy "ok")
  refine ⟨?_, ?_, ?_⟩
  · exact h.1 ("something else", healthy) (by decide)
  · have h2 := h.2.1 rfl healthy (by decide)
    have hname : Op.safeMetricName "check mongo" = "check_mongo" := by decide
    rw [hname] at h2
    simpa using h2
  · have h3 := h.2.2.1
    have hcn : OpV1.counterMetricName "a b" = "a_b" := by decide
    rw [hcn] at h3
    exact h3

theorem updateV1_at (ch : OpV1.checker) (fam : String) (hc : ch.checkCounter = some fam)
    (cr : CheckResponse) (m : OpV1.CounterState) (lab : String) :
    OpV1.updateCheckMetrics ch cr m (fam, lab)
      = m (fam, lab) + (if lab = cr.health then 1 else 0) := by
  simp only [OpV1.updateCheckMetrics, hc]
  by_cases h : lab = cr.health
  · rw [if_pos (by rw [h]), if_pos h]
  · rw [if_neg (fun he => h (by injection he)), if_neg h]
    omega

theorem updateV1_other (ch : OpV1.checker) (cr : CheckResponse)
    (m : OpV1.CounterState) (k : String × String)
    (hk : ∀ fam, ch.checkCounter = some fam → k.1 ≠ fam) :
    OpV1.updateCheckMetrics ch cr m k = m k := by
  cases hc : ch.checkCounter with
  | none => simp only [OpV1.updateCheckMetrics, hc]
  | some fam =>
    simp only [OpV1.updateCheckMetrics, hc]
    rw [if_neg]
    intro he
    exact hk fam hc (by rw [he])

theorem updateV1_mono (ch : OpV1.checker) (cr : CheckResponse)
    (m : OpV1.CounterState) (k : String × String) :
    m k ≤ OpV1.updateCheckMetrics ch cr m k := by
  cases hc : ch.checkCounter with
  | none => simp only [OpV1.updateCheckMetrics, hc]; exact Nat.le_refl _
  | some fam =>
    simp only [OpV1.updateCheckMetrics, hc]
    by_cases h : k = (fam, cr.health)
    · rw [if_pos h]; omega
    · rw [if_neg h]

theorem foldV1_preserve (chs : List OpV1.checker) :
    ∀ (m : OpV1.CounterState) (k : String × String),
      (∀ d ∈ chs, ∀ fam, d.checkCounter = some fam → k.1 ≠ fam) →
      chs.foldl (fun m ch => OpV1.updateCheckMetrics ch (ch.checkFunc {}) m) m k
        = m k := by
  induction chs with
  | nil => intro m k _; rfl
  | cons c rest ih =>
    intro m k hk
    rw [List.foldl_cons, ih _ k (fun d hd => hk d (List.mem_cons_of_mem c hd)),
      updateV1_other c _ m k (hk c (List.mem_cons_self c rest))]

theorem foldV1_mono (chs : List OpV1.checker) :
    ∀ (m : OpV1.CounterState) (k : String × String),
      m k ≤ chs.foldl (fun m ch => OpV1.updateCheckMetrics ch (ch.checkFunc {}) m) m k := by
  induction chs with
  | nil => intro m k; exact Nat.le_refl _
  | cons c rest ih =>
    intro m k
    exact Nat.le_trans (updateV1_mono c _ m k) (ih _ k)

theorem foldV1_lookup (ch : OpV1.checker) (fam : String)
    (hc : ch.checkCounter = some fam) (chs : List OpV1.checker) :
    ∀ m : OpV1.CounterState, ch ∈ chs →
      (chs.filterMap (fun c => c.checkCounter)).Nodup →
      ∀ lab : String,
        chs.foldl (fun m ch => OpV1.updateCheckMetrics ch (ch.checkFunc {}) m) m (fam, lab)
          = m (fam, lab) + (if lab = (ch.checkFunc {}).health then 1 else 0) := by
  induction chs with
  | nil => intro m hmem; exact absurd hmem (List.not_mem_nil ch)
  | cons c rest ih =>
    intro m hmem hnodup lab
    rw [List.foldl_cons]
    rcases List.mem_cons.mp hmem with hcc | hcc
    · subst hcc
      rw [List.filterMap_cons, hc, List.nodup_cons] at hnodup
      rw [foldV1_preserve rest _ (fam, lab) ?_, updateV1_at ch fam hc _ m lab]
      intro d hd f hdf he
      apply hnodup.1
      have : f ∈ rest.filterMap (fun c => c.checkCounter) :=
        List.mem_filterMap.mpr ⟨d, hd, hdf⟩
      rw [← he] at this
      exact this
    · have hrest : (rest.filterMap (fun c => c.checkCounter)).Nodup := by
        rw [List.filterMap_cons] at hnodup
        cases hcase : c.checkCounter with
        | none => rw [hcase] at hnodup; exact hnodup
        | some f => rw [hcase, List.nodup_cons] at hnodup; exact hnodup.2
      have hcf : ∀ f, c.checkCounter = some f → f ≠ fam := by
        intro f hf he
        subst he
        rw [List.filterMap_cons, hf, List.nodup_cons] at hnodup
        exact hnodup.1 (List.mem_filterMap.mpr ⟨ch, hcc, hc⟩)
      rw [ih _ hcc hrest lab, updateV1_other c _ m (fam, lab)
        (fun f hf he => hcf f hf he.symm)]

theorem checkV1_metrics (s : OpV1.StatusData) (m : OpV1.CounterState) :
    (s.Check m).2 = s.checkers.foldl
      (fun m ch => OpV1.updateCheckMetrics ch (ch.checkFunc {}) m) m := by
  have aux : ∀ (chs : List OpV1.checker) (es : List healthResultEntry)
      (m : OpV1.CounterState),
      (chs.foldl
        (fun (acc : List healthResultEntry × OpV1.CounterState) ch =>
          (acc.1 ++ [{ Name := ch.name, Health := (ch.checkFunc {}).health,
                       Output := (ch.checkFunc {}).output,
                       Action := (ch.checkFunc {}).action,
                       Impact := (ch.checkFunc {}).impact }],
           OpV1.updateCheckMetrics ch (ch.checkFunc {}) acc.2)) (es, m)).2
      = chs.foldl (fun m ch => OpV1.updateCheckMetrics ch (ch.checkFunc {}) m) m := by
    intro chs
    induction chs with
    | nil => intro es m; rfl
    | cons c rest ih => intro es m; rw [List.foldl_cons, List.foldl_cons]; exact ih _ _
  exact aux s.checkers [] m

/-- A concrete counter-metering registry used by the C6 witness, built
through the registration path of part_003 as in its test. -/
def sampleStatusV1 : OpV1.Status :=
  (OpV1.NewStatus "my app" "app description").AddCheckerWithMetrics
    "check the foo bar" (fun cr => cr.Healthy "check command completed ok")

/-- Claim C6: for a checker registered through `AddCheckerWithMetrics`
(whose counter family is unique, which `MustRegister` enforces by
aborting on duplicates), every `Check()` call bumps exactly the counter
child labelled with the outcome that round produced by 1, leaves this
counter's other children unchanged, and never decrements any counter;
consequently after N rounds of a probe that always reports healthy the
healthy child reads N and the degraded and unhealthy children read 0. -/
theorem counter_per_check (s : OpV1.StatusData) (ch : OpV1.checker) (fam : String)
    (hmem : ch ∈ s.checkers) (hctr : ch.checkCounter = some fam)
    (hnodup : (s.checkers.filterMap (fun c => c.checkCounter)).Nodup) :
    (∀ m : OpV1.CounterState,
      (s.Check m).2 (fam, (ch.checkFunc {}).health)
          = m (fam, (ch.checkFunc {}).health) + 1 ∧
      ∀ lab : String, lab ≠ (ch.checkFunc {}).health →
        (s.Check m).2 (fam, lab) = m (fam, lab)) ∧
    (∀ (m : OpV1.CounterState) (k : String × String), m k ≤ (s.Check m).2 k) ∧
    ((ch.checkFunc {}).health = healthy →
      ∀ N : Nat,
        OpV1.iterCheck s N (fun _ => 0) (fam, healthy) = N ∧
        OpV1.iterCheck s N (fun _ => 0) (fam, degraded) = 0 ∧
        OpV1.iterCheck s N (fun _ => 0) (fam, unhealthy) = 0) := by
  have hround : ∀ (m : OpV1.CounterState) (lab : String),
      (s.Check m).2 (fam, lab)
        = m (fam, lab) + (if lab = (ch.checkFunc {}).health then 1 else 0) := by
    intro m lab
    rw [checkV1_metrics, foldV1_lookup ch fam hctr s.checkers m hmem hnodup lab]
  refine ⟨?_, ?_, ?_⟩
  · intro m
    constructor
    · rw [hround m _, if_pos rfl]
    · intro lab hlab
      rw [hround m lab, if_neg hlab, Nat.add_zero]
  · intro m k
    rw [checkV1_metrics]
    exact foldV1_mono s.checkers m k
  · intro hh N
    induction N with
    | zero => exact ⟨rfl, rfl, rfl⟩
    | succ n ihn =>
      have e : OpV1.iterCheck s (n + 1) (fun _ => 0)
          = (s.Check (OpV1.iterCheck s n (fun _ => 0))).2 := rfl
      refine ⟨?_, ?_, ?_⟩
      · rw [e, hround, hh, if_pos rfl, ihn.1]
      · rw [e, hround, hh, if_neg (by decide), ihn.2.1]
      · rw [e, hround, hh, if_neg (by decide), ihn.2.2]

/-- Witness for C6: in the one-checker counter registry of part_003's
test, two rounds of the always-healthy probe leave the healthy child of
`check_the_foo_bar` at 2 and its other children at 0. -/
theorem counter_per_check_witness :
    OpV1.iterCheck sampleStatusV1.toStatusData 2 (fun _ => 0)
        ("check_the_foo_bar", healthy) = 2 ∧
    OpV1.iterCheck sampleStatusV1.toStatusData 2 (fun _ => 0)
        ("check_the_foo_bar", degraded) = 0 := by
  have hfam : OpV1.counterMetricName "check the foo bar" = "check_the_foo_bar" := by
    decide
  have h := counter_per_check sampleStatusV1.toStatusData
    { name := "check the foo bar",
      checkFunc := fun cr => cr.Healthy "check command completed ok",
      checkCounter := some (OpV1.counterMetricName "check the foo bar") }
    (OpV1.counterMetricName "check the foo bar")
    (by
      show _ ∈ [] ++ [_]
      simp)
    rfl (by decide)
  have h2 := h.2.2 rfl 2
  rw [hfam] at h2
  exact ⟨h2.1, h2.2.1⟩

theorem anyHealth_filter (rs : List healthResultEntry) (x : String)
    (hx : x = healthy ∨ x = degraded ∨ x = unhealthy) :
    anyHealth (rs.filter
        (fun r => r.Health == healthy || r.Health == degraded || r.Health == unhealthy)) x
      = anyHealth rs x := by
  rw [Bool.eq_iff_iff, anyHealth_eq_true, anyHealth_eq_true]
  constructor
  · rintro ⟨r, hr, he⟩
    exact ⟨r, (List.mem_filter.mp hr).1, he⟩
  · rintro ⟨r, hr, he⟩
    refine ⟨r, List.mem_filter.mpr ⟨hr, ?_⟩, he⟩
    rcases hx with h | h | h <;> subst h <;> simp [he]

/-- A registry holding a probe that never calls any of the three outcome
setters (it returns its sink untouched) next to a healthy probe; used by
the C7 witness. -/
def unsetStatusData : Op.StatusData :=
  { name := "name", description := "desc", owners := [], links := [],
    revision := "", checkers :=
      [{ name := "noop", checkFunc := fun cr => cr },
       { name := "check mongo", checkFunc := fun cr => cr.Healthy "ok" }],
    checkResultGauge := false }

/-- Claim C7: a probe that returns without calling any of
Healthy/Degraded/Unhealthy leaves its entry's health at the
uninitialized empty string, which is none of the three outcomes; the
verdict computation ignores every entry whose health is outside the
three outcomes (restricting the collected results to the three-valued
entries leaves the verdict unchanged); and `Check()` still returns a
well-formed result object, with one entry per checker and the
registry's name. -/
theorem check_unset_outcome (s : Op.StatusData) (ch : Op.checker)
    (hmem : ch ∈ s.checkers) (hunset : (ch.checkFunc {}).health = "") :
    ((Op.runCheck ch).Health = "" ∧ (Op.runCheck ch).Health ≠ healthy ∧
      (Op.runCheck ch).Health ≠ degraded ∧ (Op.runCheck ch).Health ≠ unhealthy) ∧
    s.Check.Health = overallHealth (seenFlags (s.Check.CheckResults.filter
      (fun r => r.Health == healthy || r.Health == degraded || r.Health == unhealthy))) ∧
    s.Check.CheckResults.length = s.checkers.length ∧
    s.Check.Name = s.name := by
  refine ⟨?_, ?_, ?_, rfl⟩
  · have hrun : (Op.runCheck ch).Health = (ch.checkFunc {}).health := rfl
    rw [hrun, hunset]
    exact ⟨rfl, by decide, by decide, by decide⟩
  · have hh : s.Check.Health = overallHealth (seenFlags s.Check.CheckResults) := rfl
    rw [hh, overallHealth_seenFlags, overallHealth_seenFlags,
      anyHealth_filter _ _ (Or.inr (Or.inr rfl)),
      anyHealth_filter _ _ (Or.inr (Or.inl rfl)),
      anyHealth_filter _ _ (Or.inl rfl)]
  · exact (s.checkers.length_map Op.runCheck)

/-- Witness for C7: the no-op probe's entry stays empty, the registry's
verdict equals the verdict over only the three-valued entries, and it
concretely evaluates to healthy — the empty entry does not drag the
verdict to any outcome. -/
theorem check_unset_outcome_witness :
    (Op.runCheck { name := "noop", checkFunc := fun cr => cr }).Health = "" ∧
    unsetStatusData.Check.Health = overallHealth
      (seenFlags (unsetStatusData.Check.CheckResults.filter
        (fun r => r.Health == healthy || r.Health == degraded
          || r.Health == unhealthy))) ∧
    unsetStatusData.Check.Health = healthy := by
  have h := check_unset_outcome unsetStatusData
    { name := "noop", checkFunc := fun cr => cr }
    (List.mem_cons_self _ _) rfl
  exact ⟨h.1.1, h.2.1, by decide⟩

/-- Claim C8: the readiness predicate installed by
`ReadyUseHealthCheck()` evaluates `Check()` against the registry state
current at each query — never a cached verdict — and answers ready
exactly when that fresh verdict is healthy or degraded; every other
verdict (unhealthy included) answers not-ready.  `t` ranges over every
later state of the registry that still carries the installed
predicate. -/
theorem ready_derived_from_health (s t : Op.Status)
    (hsame : t.ready = (s.ReadyUseHealthCheck).ready) :
    (Op.queryReady t = some true ↔
      (t.toStatusData.Check.Health = healthy ∨
        t.toStatusData.Check.Health = degraded)) ∧
    (Op.queryReady t = some false ↔
      ¬(t.toStatusData.Check.Health = healthy ∨
        t.toStatusData.Check.Health = degraded)) := by
  have hs : (s.ReadyUseHealthCheck).ready = some Op.readyUseHealthCheckBody := rfl
  rw [hs] at hsame
  rw [Op.queryReady, hsame, Option.map_some']
  rw [Op.readyUseHealthCheckBody]
  by_cases h1 : t.toStatusData.Check.Health = healthy
  · simp [h1]
  · by_cases h2 : t.toStatusData.Check.Health = degraded
    · simp [h1, h2]
    · simp [h1, h2]

/-- Witness for C8: with the predicate installed over a healthy-checker
registry the query answers ready; after the registry gains an unhealthy
checker — the same installed predicate, no re-installation — the very
next query answers not-ready, showing the verdict is recomputed at query
time. -/
theorem ready_derived_from_health_witness :
    Op.queryReady (((Op.NewStatus "n" "d").AddChecker "c"
        (fun cr => cr.Healthy "ok")).ReadyUseHealthCheck) = some true ∧
    Op.queryReady ((((Op.NewStatus "n" "d").AddChecker "c"
        (fun cr => cr.Healthy "ok")).ReadyUseHealthCheck).AddChecker "bad"
        (fun cr => cr.Unhealthy "o" "a" "i")) = some false := by
  constructor
  · exact (ready_derived_from_health
      ((Op.NewStatus "n" "d").AddChecker "c" (fun cr => cr.Healthy "ok"))
      (((Op.NewStatus "n" "d").AddChecker "c"
        (fun cr => cr.Healthy "ok")).ReadyUseHealthCheck) rfl).1.mpr
      (Or.inl (by decide))
  · exact (ready_derived_from_health
      ((Op.NewStatus "n" "d").AddChecker "c" (fun cr => cr.Healthy "ok"))
      ((((Op.NewStatus "n" "d").AddChecker "c"
        (fun cr => cr.Healthy "ok")).ReadyUseHealthCheck).AddChecker "bad"
        (fun cr => cr.Unhealthy "o" "a" "i")) rfl).2.mpr
      (by
        rintro (h | h) <;> revert h <;> decide)

/-- Claim C9, evaluated on the code at the failing input: the handler of
`src/op/handlers.go` decides the zero-checkers not-found branch at
construction time, so after a checker is added to the registry it still
answers not-found, although the registry now has one checker; the
part_005 revision of the same function, whose test
(`TestHealthCheckHandler_PostServeNewChecker`) encodes the claimed
behaviour, answers 200 with the freshly computed health result on the
same input. -/
theorem health_handler_construction_time_check :
    Op.HandlersA.newHealthCheckHandler (Op.NewStatus "name" "desc")
        ((Op.NewStatus "name" "desc").AddChecker "check1"
          (fun cr => cr.Healthy "output1"))
      = Op.Response.notFound ∧
    ((Op.NewStatus "name" "desc").AddChecker "check1"
        (fun cr => cr.Healthy "output1")).checkers.length = 1 ∧
    Op.HandlersB.newHealthCheckHandler (Op.NewStatus "name" "desc")
        ((Op.NewStatus "name" "desc").AddChecker "check1"
          (fun cr => cr.Healthy "output1"))
      = Op.Response.okJson (((Op.NewStatus "name" "desc").AddChecker "check1"
          (fun cr => cr.Healthy "output1")).toStatusData.Check) := by
  refine ⟨rfl, rfl, ?_⟩
  rw [Op.HandlersB.newHealthCheckHandler, if_neg (by decide)]

/-- Claim C10: `Check()` leaves the registry unchanged — with the probes
pure state transformers on their outcome sink (the claim's proviso that
probes do not mutate the `Status`), the threaded registry that comes out
of the effect-explicit `CheckFull` agrees with the input registry on
every field: name, description, owners, links, revision, checker list,
readiness predicate and gauge handle — while the call only constructs
the fresh `HealthResult` of `Check` and rewrites the metrics store
exactly as the metering pass does. -/
theorem check_frame_effect (s : Op.Status) (g : Op.Gauge) :
    ((s.CheckFull g).2.1.name = s.name ∧
     (s.CheckFull g).2.1.description = s.description ∧
     (s.CheckFull g).2.1.owners = s.owners ∧
     (s.CheckFull g).2.1.links = s.links ∧
     (s.CheckFull g).2.1.revision = s.revision ∧
     (s.CheckFull g).2.1.checkers = s.checkers ∧
     (s.CheckFull g).2.1.ready = s.ready ∧
     (s.CheckFull g).2.1.checkResultGauge = s.checkResultGauge) ∧
    (s.CheckFull g).1 = s.toStatusData.Check ∧
    (s.CheckFull g).2.2 = s.toStatusData.runMetrics g := by
  have aux : ∀ (chs : List Op.checker) (es : List healthResultEntry)
      (st : Op.Status) (g0 : Op.Gauge),
      chs.foldl
        (fun (acc : List healthResultEntry × Op.Status × Op.Gauge) ch =>
          (acc.1 ++ [{ Name := ch.name, Health := (ch.checkFunc {}).health,
                       Output := (ch.checkFunc {}).output,
                       Action := (ch.checkFunc {}).action,
                       Impact := (ch.checkFunc {}).impact }],
           acc.2.1,
           acc.2.1.toStatusData.updateCheckMetrics acc.2.2 ch (ch.checkFunc {})))
        (es, st, g0)
      = (es ++ chs.map Op.runCheck, st,
         chs.foldl
           (fun g1 ch => st.toStatusData.updateCheckMetrics g1 ch (ch.checkFunc {})) g0) := by
    intro chs
    induction chs with
    | nil => intro es st g0; simp
    | cons c rest ih =>
      intro es st g0
      rw [List.foldl_cons, List.foldl_cons, ih]
      simp [Op.runCheck]
  have e : s.CheckFull g =
      ({ Name := s.name, Description := s.description,
         Health := overallHealth (seenFlags (s.checkers.map Op.runCheck)),
         CheckResults := s.checkers.map Op.runCheck }, s,
       s.toStatusData.runMetrics g) := by
    rw [Op.Status.CheckFull, aux s.checkers [] s g]
    rw [List.nil_append]
    rfl
  rw [e]
  exact ⟨⟨rfl, rfl, rfl, rfl, rfl, rfl, rfl, rfl⟩, rfl, rfl⟩

/-! ### Claim C1 -/

/-- Claim C1: the overall verdict of `Check()` follows the fixed
precedence on the collected outcomes — any unhealthy outcome forces
`unhealthy`; otherwise any degraded outcome forces `degraded`; otherwise
any healthy outcome gives `healthy`; otherwise (in particular with zero
checkers) the verdict is `unhealthy` — and it is invariant under
permutation of the collected outcomes, hence independent of counts and
ordering. -/
theorem check_verdict_precedence (s : Op.StatusData) :
    ((∃ r ∈ s.Check.CheckResults, r.Health = unhealthy) →
        s.Check.Health = unhealthy) ∧
    ((∀ r ∈ s.Check.CheckResults, r.Health ≠ unhealthy) →
      (∃ r ∈ s.Check.CheckResults, r.Health = degraded) →
        s.Check.Health = degraded) ∧
    ((∀ r ∈ s.Check.CheckResults, r.Health ≠ unhealthy) →
      (∀ r ∈ s.Check.CheckResults, r.Health ≠ degraded) →
      (∃ r ∈ s.Check.CheckResults, r.Health = healthy) →
        s.Check.Health = healthy) ∧
    ((∀ r ∈ s.Check.CheckResults, r.Health ≠ unhealthy) →
      (∀ r ∈ s.Check.CheckResults, r.Health ≠ degraded) →
      (∀ r ∈ s.Check.CheckResults, r.Health ≠ healthy) →
        s.Check.Health = unhealthy) ∧
    (s.checkers = [] → s.Check.Health = unhealthy) ∧
    (∀ t : Op.StatusData, t.Check.CheckResults.Perm s.Check.CheckResults →
        t.Check.Health = s.Check.Health) := by
  have hres : s.Check.CheckResults = s.checkers.map Op.runCheck := rfl
  have hh : ∀ u : Op.StatusData,
      u.Check.Health = overallHealth (seenFlags u.Check.CheckResults) := fun _ => rfl
  have hany : ∀ (rs : List healthResultEntry) (x : String),
      anyHealth rs x = false ↔ ∀ r ∈ rs, r.Health ≠ x := by
    intro rs x
    rw [← Bool.not_eq_true, anyHealth_eq_true]
    simp
  refine ⟨?_, ?_, ?_, ?_, ?_, ?_⟩
  · intro hex
    rw [hh, overallHealth_seenFlags, if_pos ((anyHealth_eq_true _ _).mpr hex)]
  · intro hnu hex
    rw [hh, overallHealth_seenFlags, (hany _ _).mpr hnu,
      if_neg (by simp), if_pos ((anyHealth_eq_true _ _).mpr hex)]
  · intro hnu hnd hex
    rw [hh, overallHealth_seenFlags, (hany _ _).mpr hnu, (hany _ _).mpr hnd,
      if_neg (by simp), if_neg (by simp),
      if_pos ((anyHealth_eq_true _ _).mpr hex)]
  · intro hnu hnd hnh
    rw [hh, overallHealth_seenFlags, (hany _ _).mpr hnu, (hany _ _).mpr hnd,
      (hany _ _).mpr hnh]
    simp
  · intro hnil
    rw [hh, overallHealth_seenFlags, hres, hnil]
    simp [anyHealth]
  · intro t hperm
    rw [hh t, hh s, overallHealth_seenFlags, overallHealth_seenFlags,
      anyHealth_perm hperm, anyHealth_perm hperm, anyHealth_perm hperm]

/-- Witness for C1 at a concrete registry: with one healthy and one
unhealthy checker the verdict is unhealthy, and the empty registry is
also unhealthy. -/
theorem check_verdict_precedence_witness :
    sampleStatusData.Check.Health = unhealthy ∧
    ({ sampleStatusData with checkers := [] } : Op.StatusData).Check.Health
      = unhealthy :=
  ⟨(check_verdict_precedence sampleStatusData).1 (by decide),
   ((check_verdict_precedence { sampleStatusData with checkers := [] }).2.2.2.2.1) rfl⟩

end GoOperational
